import Mathlib

/-!
Shallow embedding of `src/EventListener/Event.h`: the generic
`Event<Types...>` class, a publish/subscribe primitive holding a
`std::vector<Listener>` where each `Listener` stores an `instancePtr`
(`nullptr` for free functions), a raw `functionPtr` used for removal
comparisons, and a type-erased `std::function` callback.

The variadic argument pack `Types...` is embedded as a single type
parameter `Arg` (the packed argument tuple). Raw pointers are embedded
as `Ptr := Nat`; the `void*` `instancePtr` field is `Option Ptr` with
`none` standing for `nullptr`. The four `AddListener` overloads each
store a specific closure; those closures are embedded as a `Callback`
descriptor recording which overload built them, and `Callback.run`
gives the call the stored closure performs when invoked with the
trigger arguments. `Event.Trigger` returns the trace of calls the
loop at lines 167-170 performs, in order.
-/

namespace EventListener

/-- Raw pointer identity (the `void*` comparison space: addresses of free
functions and the first word of member-function pointers both land here,
exactly as the `reinterpret_cast`s in the source compare them). -/
abbrev Ptr := Nat

/-- One call performed by a stored callback when the event is triggered:
a free function invoked with the trigger arguments, a no-argument free
function invoked discarding them, or a member method on an instance,
with or without the arguments. -/
inductive CallEvent (Arg : Type) where
  | fnCall (f : Ptr) (a : Arg)
  | fnCall0 (f : Ptr)
  | methodCall (inst : Ptr) (f : Ptr) (a : Arg)
  | methodCall0 (inst : Ptr) (f : Ptr)
deriving DecidableEq

/-- Descriptor of the type-erased `std::function` closure stored by each of
the four `AddListener` overloads: wrapping a free function of the exact
signature, a no-argument free function (arguments ignored), a bound method
of the exact signature, or a no-argument bound method. -/
inductive Callback (Arg : Type) where
  | fn (f : Ptr)
  | fn0 (f : Ptr)
  | method (inst : Ptr) (f : Ptr)
  | method0 (inst : Ptr) (f : Ptr)
deriving DecidableEq

/-- The call the stored closure performs when invoked with arguments `a`:
the exact-signature wrappers forward `a`, the no-argument wrappers discard
it, mirroring the lambda bodies in the `AddListener` overloads. -/
def Callback.run {Arg : Type} : Callback Arg → Arg → CallEvent Arg
  | .fn f, a => .fnCall f a
  | .fn0 f, _ => .fnCall0 f
  | .method i f, a => .methodCall i f a
  | .method0 i f, _ => .methodCall0 i f

/-- `struct Listener`: `instancePtr` is the owning object (or `none` for
`nullptr`, free functions), `functionPtr` the raw pointer used for
comparison and removal, `callback` the stored closure. -/
structure Listener (Arg : Type) where
  instancePtr : Option Ptr
  functionPtr : Ptr
  callback : Callback Arg
deriving DecidableEq

/-- `class Event<Types...>`: owns the insertion-ordered `_listeners`
vector. -/
structure Event (Arg : Type) where
  listeners : List (Listener Arg)
deriving DecidableEq

variable {Arg : Type}

/-- `AddListener(void(*function)(Types...))`: pushes back
`{ nullptr, function, function }`. -/
def Event.AddListener_fn (e : Event Arg) (f : Ptr) : Event Arg :=
  ⟨e.listeners ++ [⟨none, f, .fn f⟩]⟩

/-- `AddListener(void(*function)())`: pushes back a listener whose closure
ignores the arguments and calls `function()`. -/
def Event.AddListener_fn0 (e : Event Arg) (f : Ptr) : Event Arg :=
  ⟨e.listeners ++ [⟨none, f, .fn0 f⟩]⟩

/-- `AddListener(T* instance, void(T::*function)(Types...))`: pushes back
`{ instance, functionPtr, λargs. (instance->*function)(args...) }`. -/
def Event.AddListener_method (e : Event Arg) (inst f : Ptr) : Event Arg :=
  ⟨e.listeners ++ [⟨some inst, f, .method inst f⟩]⟩

/-- `AddListener(T* instance, void(T::*function)())`: pushes back a listener
whose closure ignores the arguments and calls `(instance->*function)()`. -/
def Event.AddListener_method0 (e : Event Arg) (inst f : Ptr) : Event Arg :=
  ⟨e.listeners ++ [⟨some inst, f, .method0 inst f⟩]⟩

/-- `RemoveListener(void(*function)(Types...))`: erase-remove of every
listener with `listener.functionPtr == functionPtr` (the `instancePtr`
field is not consulted); `std::remove_if` + `erase` keeps the survivors in
their original relative order, i.e. a filter. -/
def Event.RemoveListener_fn (e : Event Arg) (f : Ptr) : Event Arg :=
  ⟨e.listeners.filter (fun l => !(l.functionPtr == f))⟩

/-- `RemoveListener(void(*function)())`: identical body to the
exact-signature overload, comparing only `functionPtr`. -/
def Event.RemoveListener_fn0 (e : Event Arg) (f : Ptr) : Event Arg :=
  ⟨e.listeners.filter (fun l => !(l.functionPtr == f))⟩

/-- `RemoveListener(T* instance, void(T::*function)(Types...))`:
erase-remove of every listener with
`listener.instancePtr == instance && listener.functionPtr == functionPtr`. -/
def Event.RemoveListener_method (e : Event Arg) (inst f : Ptr) : Event Arg :=
  ⟨e.listeners.filter (fun l => !(l.instancePtr == some inst && l.functionPtr == f))⟩

/-- `RemoveListener(T* instance, void(T::*function)())`: identical body to
the exact-signature method overload. -/
def Event.RemoveListener_method0 (e : Event Arg) (inst f : Ptr) : Event Arg :=
  ⟨e.listeners.filter (fun l => !(l.instancePtr == some inst && l.functionPtr == f))⟩

/-- `RemoveAllListeners()`: `_listeners.clear()`. -/
def Event.RemoveAllListeners (e : Event Arg) : Event Arg :=
  ⟨[]⟩

/-- `Trigger(Types... args) const`: invokes every listener's callback with
`args`, in vector order; returns the trace of calls performed. -/
def Event.Trigger (e : Event Arg) (a : Arg) : List (CallEvent Arg) :=
  e.listeners.map (fun l => l.callback.run a)

/-- The `Trigger` loop run in an environment `env` telling, for each call a
callback performs, which fault (exception) it raises, if any (`none` means
the callback returns normally). The source loop has no try/catch, so an
exception thrown by a callback aborts the range-for loop: the loop stops at
the first faulting callback, returning the calls performed so far (that
faulting call included) together with the fault, propagated unmodified. -/
def triggerWithFaults {F : Type} (env : CallEvent Arg → Option F) (a : Arg) :
    List (Listener Arg) → List (CallEvent Arg) × Option F
  | [] => ([], none)
  | l :: ls =>
    match env (l.callback.run a) with
    | some fault => ([l.callback.run a], some fault)
    | none =>
      let r := triggerWithFaults env a ls
      (l.callback.run a :: r.1, r.2)

/-- `Trigger` under the fault environment `env`, over the listener list of
`e`. -/
def Event.TriggerF {F : Type} (e : Event Arg) (env : CallEvent Arg → Option F)
    (a : Arg) : List (CallEvent Arg) × Option F :=
  triggerWithFaults env a e.listeners

/-- One API call on the channel, for reasoning about call sequences. -/
inductive Op (Arg : Type) where
  | addFn (f : Ptr)
  | addFn0 (f : Ptr)
  | addMethod (inst f : Ptr)
  | addMethod0 (inst f : Ptr)
  | removeFn (f : Ptr)
  | removeFn0 (f : Ptr)
  | removeMethod (inst f : Ptr)
  | removeMethod0 (inst f : Ptr)
  | removeAll
  | trigger (a : Arg)
deriving DecidableEq

/-- Effect of one API call: the channel state after the call and the trace
of listener calls it performed (only `trigger` invokes listeners; the
mutators return an empty trace). `trigger` is a `const` member function, so
its state component is the unchanged receiver. -/
def step (e : Event Arg) : Op Arg → Event Arg × List (CallEvent Arg)
  | .addFn f => (e.AddListener_fn f, [])
  | .addFn0 f => (e.AddListener_fn0 f, [])
  | .addMethod i f => (e.AddListener_method i f, [])
  | .addMethod0 i f => (e.AddListener_method0 i f, [])
  | .removeFn f => (e.RemoveListener_fn f, [])
  | .removeFn0 f => (e.RemoveListener_fn0 f, [])
  | .removeMethod i f => (e.RemoveListener_method i f, [])
  | .removeMethod0 i f => (e.RemoveListener_method0 i f, [])
  | .removeAll => (e.RemoveAllListeners, [])
  | .trigger a => (e, e.Trigger a)

/-- Run a sequence of API calls, returning the final channel state. -/
def run (e : Event Arg) : List (Op Arg) → Event Arg
  | [] => e
  | op :: ops => run (step e op).1 ops

/-- Whether an operation is one of the four `AddListener` overloads. -/
def Op.isAdd : Op Arg → Bool
  | .addFn _ => true
  | .addFn0 _ => true
  | .addMethod _ _ => true
  | .addMethod0 _ _ => true
  | _ => false

/-- The call a listener registered by an `AddListener` operation performs
when the event is later triggered with arguments `a` (empty for
non-`AddListener` operations). -/
def Op.addedCalls (a : Arg) : Op Arg → List (CallEvent Arg)
  | .addFn f => [.fnCall f a]
  | .addFn0 f => [.fnCall0 f]
  | .addMethod i f => [.methodCall i f a]
  | .addMethod0 i f => [.methodCall0 i f]
  | _ => []

/-- Helper for C1: running a sequence of `AddListener` operations from any
state appends, listener by listener, the corresponding calls to the
subsequent trigger trace. -/
theorem run_adds_trigger (a : Arg) (ops : List (Op Arg)) :
    ∀ e : Event Arg, (∀ op ∈ ops, op.isAdd = true) →
      (run e ops).Trigger a = e.Trigger a ++ ops.flatMap (Op.addedCalls a) := by
  induction ops with
  | nil => intro e _; simp [run]
  | cons op ops ih =>
    intro e h
    have hop : op.isAdd = true := h op (List.mem_cons_self _ _)
    have hops : ∀ o ∈ ops, o.isAdd = true :=
      fun o ho => h o (List.mem_cons_of_mem _ ho)
    cases op with
    | addFn f =>
      show (run (e.AddListener_fn f) ops).Trigger a = _
      rw [ih _ hops]
      simp [Event.Trigger, Event.AddListener_fn, Callback.run, List.flatMap_cons,
        Op.addedCalls]
    | addFn0 f =>
      show (run (e.AddListener_fn0 f) ops).Trigger a = _
      rw [ih _ hops]
      simp [Event.Trigger, Event.AddListener_fn0, Callback.run, List.flatMap_cons,
        Op.addedCalls]
    | addMethod i f =>
      show (run (e.AddListener_method i f) ops).Trigger a = _
      rw [ih _ hops]
      simp [Event.Trigger, Event.AddListener_method, Callback.run,
        List.flatMap_cons, Op.addedCalls]
    | addMethod0 i f =>
      show (run (e.AddListener_method0 i f) ops).Trigger a = _
      rw [ih _ hops]
      simp [Event.Trigger, Event.AddListener_method0, Callback.run,
        List.flatMap_cons, Op.addedCalls]
    | removeFn f => simp [Op.isAdd] at hop
    | removeFn0 f => simp [Op.isAdd] at hop
    | removeMethod i f => simp [Op.isAdd] at hop
    | removeMethod0 i f => simp [Op.isAdd] at hop
    | removeAll => simp [Op.isAdd] at hop
    | trigger b => simp [Op.isAdd] at hop

/-- C1: for every sequence of `AddListener` calls on a fresh channel followed
by one `Trigger a`, each registered listener's invoker is invoked exactly
once, in registration order: listeners registered via an exact-signature
overload receive the arguments `a`, and listeners registered via a
no-argument overload are called with no arguments. The trigger trace is
exactly the concatenation, in registration order, of each registration's
call shape. -/
theorem trigger_after_adds (ops : List (Op Arg)) (a : Arg)
    (h : ∀ op ∈ ops, op.isAdd = true) :
    (run (⟨[]⟩ : Event Arg) ops).Trigger a = ops.flatMap (Op.addedCalls a) := by
  rw [run_adds_trigger a ops _ h]
  simp [Event.Trigger]

/-- Witness for C1: two exact-signature listeners around a discarding one. -/
theorem trigger_after_adds_witness :
    (∀ op ∈ ([Op.addFn 4, Op.addFn0 1, Op.addMethod 2 3] : List (Op Nat)),
        op.isAdd = true)
    ∧ (run (⟨[]⟩ : Event Nat) [Op.addFn 4, Op.addFn0 1, Op.addMethod 2 3]).Trigger 42
        = ([Op.addFn 4, Op.addFn0 1, Op.addMethod 2 3] : List (Op Nat)).flatMap
            (Op.addedCalls 42) :=
  ⟨by decide, trigger_after_adds _ 42 (by decide)⟩

/-- C2: `RemoveListener(owner, method)` removes exactly the listener records
matching both the owner identity and the callable identity; a listener
registered with the same method but a different owner survives and is still
invoked by a subsequent `Trigger`. -/
theorem removeListener_method_exact (e : Event Arg) (o m o' : Ptr) (a : Arg)
    (h : o' ≠ o) :
    (∀ l : Listener Arg,
        l ∈ ((e.AddListener_method o' m).RemoveListener_method o m).listeners
          ↔ l ∈ (e.AddListener_method o' m).listeners
              ∧ ¬(l.instancePtr = some o ∧ l.functionPtr = m))
    ∧ CallEvent.methodCall o' m a
        ∈ ((e.AddListener_method o' m).RemoveListener_method o m).Trigger a := by
  constructor
  · intro l
    simp [Event.RemoveListener_method, List.mem_filter]
    tauto
  · apply List.mem_map.mpr
    refine ⟨⟨some o', m, .method o' m⟩, ?_, rfl⟩
    simp [Event.RemoveListener_method, Event.AddListener_method, List.mem_filter, h]

/-- Witness for C2: owner 2 keeps its listener when owner 1's is removed. -/
theorem removeListener_method_exact_witness :
    (2 : Ptr) ≠ 1
    ∧ ((∀ l : Listener Nat,
          l ∈ (((⟨[]⟩ : Event Nat).AddListener_method 2 3).RemoveListener_method
                1 3).listeners
            ↔ l ∈ ((⟨[]⟩ : Event Nat).AddListener_method 2 3).listeners
                ∧ ¬(l.instancePtr = some 1 ∧ l.functionPtr = 3))
        ∧ CallEvent.methodCall 2 3 7
            ∈ (((⟨[]⟩ : Event Nat).AddListener_method 2 3).RemoveListener_method
                1 3).Trigger 7) :=
  ⟨by decide, removeListener_method_exact ⟨[]⟩ 1 3 2 7 (by decide)⟩

/-- C3: registering the same (owner, callable) pair twice keeps both records
and both are invoked by `Trigger`, in order (no deduplication at add time);
a single matching `RemoveListener` call deletes both duplicates (the state
equals the one obtained by removing from the original state, so no copy of
the pair survives). -/
theorem duplicate_registration (e : Event Arg) (o m : Ptr) (a : Arg) :
    ((e.AddListener_method o m).AddListener_method o m).Trigger a
        = e.Trigger a ++ [CallEvent.methodCall o m a, CallEvent.methodCall o m a]
    ∧ ((e.AddListener_method o m).AddListener_method o m).RemoveListener_method o m
        = e.RemoveListener_method o m := by
  constructor
  · simp [Event.Trigger, Event.AddListener_method, Callback.run]
  · simp [Event.RemoveListener_method, Event.AddListener_method,
      List.filter_append]

/-- C4: when no listener record matches the given identity (or identity
pair), every `RemoveListener` overload is a no-op: it signals nothing and
leaves the channel state exactly unchanged. -/
theorem remove_without_match_is_noop (e : Event Arg) (f o m : Ptr)
    (hf : ∀ l ∈ e.listeners, l.functionPtr ≠ f)
    (hm : ∀ l ∈ e.listeners, ¬(l.instancePtr = some o ∧ l.functionPtr = m)) :
    e.RemoveListener_fn f = e ∧ e.RemoveListener_fn0 f = e
    ∧ e.RemoveListener_method o m = e ∧ e.RemoveListener_method0 o m = e := by
  have h1 : e.listeners.filter (fun l => !(l.functionPtr == f)) = e.listeners :=
    List.filter_eq_self.mpr (fun l hl => by simpa using hf l hl)
  have h2 : e.listeners.filter
      (fun l => !(l.instancePtr == some o && l.functionPtr == m)) = e.listeners :=
    List.filter_eq_self.mpr (fun l hl => by
      have h := hm l hl
      simp at h ⊢
      tauto)
  refine ⟨?_, ?_, ?_, ?_⟩
  · rw [Event.RemoveListener_fn, h1]
  · rw [Event.RemoveListener_fn0, h1]
  · rw [Event.RemoveListener_method, h2]
  · rw [Event.RemoveListener_method0, h2]

/-- Witness for C4: a channel with one free-function and one method listener,
and removal identities matching neither. -/
theorem remove_without_match_is_noop_witness :
    (∀ l ∈ (⟨[⟨none, 5, Callback.fn 5⟩, ⟨some 1, 6, Callback.method 1 6⟩]⟩ :
        Event Nat).listeners, l.functionPtr ≠ 7)
    ∧ (∀ l ∈ (⟨[⟨none, 5, Callback.fn 5⟩, ⟨some 1, 6, Callback.method 1 6⟩]⟩ :
        Event Nat).listeners, ¬(l.instancePtr = some 1 ∧ l.functionPtr = 5))
    ∧ ((⟨[⟨none, 5, Callback.fn 5⟩, ⟨some 1, 6, Callback.method 1 6⟩]⟩ :
          Event Nat).RemoveListener_fn 7
        = ⟨[⟨none, 5, Callback.fn 5⟩, ⟨some 1, 6, Callback.method 1 6⟩]⟩
      ∧ (⟨[⟨none, 5, Callback.fn 5⟩, ⟨some 1, 6, Callback.method 1 6⟩]⟩ :
          Event Nat).RemoveListener_fn0 7
        = ⟨[⟨none, 5, Callback.fn 5⟩, ⟨some 1, 6, Callback.method 1 6⟩]⟩
      ∧ (⟨[⟨none, 5, Callback.fn 5⟩, ⟨some 1, 6, Callback.method 1 6⟩]⟩ :
          Event Nat).RemoveListener_method 1 5
        = ⟨[⟨none, 5, Callback.fn 5⟩, ⟨some 1, 6, Callback.method 1 6⟩]⟩
      ∧ (⟨[⟨none, 5, Callback.fn 5⟩, ⟨some 1, 6, Callback.method 1 6⟩]⟩ :
          Event Nat).RemoveListener_method0 1 5
        = ⟨[⟨none, 5, Callback.fn 5⟩, ⟨some 1, 6, Callback.method 1 6⟩]⟩) :=
  ⟨by decide, by decide,
    remove_without_match_is_noop _ 7 1 5 (by decide) (by decide)⟩

/-- C5: the plain-function `RemoveListener(function)` removes every
previously added plain-function listener whose stored identity equals
`function`'s, whether it was registered via the exact-signature or the
no-argument `AddListener` overload (both store the same comparable
identity); afterwards no surviving record carries that identity. -/
theorem removeListener_fn_removes_both_overloads (e : Event Arg) (f : Ptr) :
    (e.AddListener_fn f).RemoveListener_fn f = e.RemoveListener_fn f
    ∧ (e.AddListener_fn0 f).RemoveListener_fn f = e.RemoveListener_fn f
    ∧ ∀ l ∈ (e.RemoveListener_fn f).listeners, l.functionPtr ≠ f := by
  refine ⟨?_, ?_, ?_⟩
  · simp [Event.RemoveListener_fn, Event.AddListener_fn, List.filter_append]
  · simp [Event.RemoveListener_fn, Event.AddListener_fn0, List.filter_append]
  · intro l hl
    simp [Event.RemoveListener_fn, List.mem_filter] at hl
    exact hl.2

/-- C6: the listener sequence stays in registration order: every
`AddListener` overload appends its record at the end, and every
`RemoveListener` overload leaves the survivors as a sublist of the previous
sequence (relative order preserved, no reordering). -/
theorem listener_order_invariant (e : Event Arg) (f o m : Ptr) :
    (e.AddListener_fn f).listeners = e.listeners ++ [⟨none, f, .fn f⟩]
    ∧ (e.AddListener_fn0 f).listeners = e.listeners ++ [⟨none, f, .fn0 f⟩]
    ∧ (e.AddListener_method o m).listeners
        = e.listeners ++ [⟨some o, m, .method o m⟩]
    ∧ (e.AddListener_method0 o m).listeners
        = e.listeners ++ [⟨some o, m, .method0 o m⟩]
    ∧ List.Sublist (e.RemoveListener_fn f).listeners e.listeners
    ∧ List.Sublist (e.RemoveListener_fn0 f).listeners e.listeners
    ∧ List.Sublist (e.RemoveListener_method o m).listeners e.listeners
    ∧ List.Sublist (e.RemoveListener_method0 o m).listeners e.listeners :=
  ⟨rfl, rfl, rfl, rfl, List.filter_sublist _, List.filter_sublist _,
    List.filter_sublist _, List.filter_sublist _⟩

/-- C7: `RemoveAllListeners` empties the listener sequence unconditionally,
is idempotent, and a subsequent `Trigger` invokes no listeners. -/
theorem removeAllListeners_clears (e : Event Arg) (a : Arg) :
    (e.RemoveAllListeners).listeners = []
    ∧ e.RemoveAllListeners.RemoveAllListeners = e.RemoveAllListeners
    ∧ (e.RemoveAllListeners).Trigger a = [] :=
  ⟨rfl, rfl, rfl⟩

/-- C8: `Trigger` does not mutate the listener sequence: the channel state
after a `trigger` operation is exactly the state before it (the C++ method
is `const`; with no callback mutating the channel, the sequence is
unchanged). -/
theorem trigger_preserves_listeners (e : Event Arg) (a : Arg) :
    (step e (Op.trigger a)).1 = e :=
  rfl

/-- C9: if the k-th listener's callback raises a fault during `Trigger`, the
fault propagates to the caller unmodified (no catching or suppression) and
no listener after the k-th is invoked in that call: the trace is exactly the
calls of the listeners before the faulting one, plus the faulting call. -/
theorem trigger_fault_aborts {F : Type} (env : CallEvent Arg → Option F)
    (a : Arg) (pre post : List (Listener Arg)) (l : Listener Arg) (fault : F)
    (hpre : ∀ p ∈ pre, env (p.callback.run a) = none)
    (hl : env (l.callback.run a) = some fault) :
    Event.TriggerF ⟨pre ++ l :: post⟩ env a
      = (pre.map (fun p => p.callback.run a) ++ [l.callback.run a],
          some fault) := by
  revert hpre
  induction pre with
  | nil =>
    intro _
    simp [Event.TriggerF, triggerWithFaults, hl]
  | cons p ps ih =>
    intro hpre
    have hp : env (p.callback.run a) = none := hpre p (List.mem_cons_self _ _)
    have hps : ∀ q ∈ ps, env (q.callback.run a) = none :=
      fun q hq => hpre q (List.mem_cons_of_mem _ hq)
    have := ih hps
    simp only [Event.TriggerF] at this
    simp [Event.TriggerF, triggerWithFaults, hp, this]

/-- Witness for C9: listener 2 runs, listener 1 faults with fault 0,
listener 3 is never invoked. -/
theorem trigger_fault_aborts_witness :
    (∀ p ∈ ([⟨none, 2, Callback.fn 2⟩] : List (Listener Nat)),
        (fun c => if c = CallEvent.fnCall0 1 then some 0 else (none : Option Nat))
          (p.callback.run 7) = none)
    ∧ (fun c => if c = CallEvent.fnCall0 1 then some 0 else (none : Option Nat))
        ((⟨none, 1, Callback.fn0 1⟩ : Listener Nat).callback.run 7) = some 0
    ∧ Event.TriggerF
        ⟨[⟨none, 2, Callback.fn 2⟩]
          ++ (⟨none, 1, Callback.fn0 1⟩ : Listener Nat) :: [⟨none, 3, Callback.fn 3⟩]⟩
        (fun c => if c = CallEvent.fnCall0 1 then some 0 else (none : Option Nat)) 7
      = (([⟨none, 2, Callback.fn 2⟩] : List (Listener Nat)).map
            (fun p => p.callback.run 7)
          ++ [(⟨none, 1, Callback.fn0 1⟩ : Listener Nat).callback.run 7],
          some 0) :=
  ⟨by decide, by decide,
    trigger_fault_aborts _ 7 [⟨none, 2, Callback.fn 2⟩] [⟨none, 3, Callback.fn 3⟩]
      ⟨none, 1, Callback.fn0 1⟩ 0 (by decide) (by decide)⟩

/-- C10: the plain-function `RemoveListener` overloads compare only the
stored callable identity and never consult the owner identity: they filter
solely on `functionPtr`, and a method-listener record whose stored
`functionPtr` compares equal to the removed function's identity is removed
too, despite its non-null `instancePtr`. -/
theorem removeListener_fn_ignores_owner (e : Event Arg) (f o : Ptr) :
    (e.AddListener_method o f).RemoveListener_fn f = e.RemoveListener_fn f
    ∧ (e.AddListener_method o f).RemoveListener_fn0 f = e.RemoveListener_fn0 f
    ∧ (e.RemoveListener_fn f).listeners
        = e.listeners.filter (fun l => !(l.functionPtr == f))
    ∧ (e.RemoveListener_fn0 f).listeners
        = e.listeners.filter (fun l => !(l.functionPtr == f)) := by
  refine ⟨?_, ?_, rfl, rfl⟩
  · simp [Event.RemoveListener_fn, Event.AddListener_method, List.filter_append]
  · simp [Event.RemoveListener_fn0, Event.AddListener_method, List.filter_append]

end EventListener
